import Mathlib

/-!
Verification of the Audio_Assets batch audio conversion pipeline.

The development shallowly embeds the two scripts that carry the design
logic: `Tools/process/Main.py` (decoder resolution and the conversion
engine `process_audio_files`) and `Tools/process/setup.py` (the
directory classifier `organize_source_directories`).  Paths are plain
POSIX strings; the filesystem, the `shutil.which` lookup, `is_file`
stats, and the external decoder process are explicit oracles, so every
definition is executable and every run of the model is a concrete
computation.
-/

namespace AudioAssets

/-! ## Path model -/

/-- Paths are plain strings with '/' separators. -/
abbrev Path := String

/-- `a / b` of `pathlib`: join with a slash. -/
def pathJoin (a b : Path) : Path := a ++ "/" ++ b

/-- String prefix test, computed on the character lists. -/
def strStartsWith (p pre : String) : Bool := pre.data.isPrefixOf p.data

/-- String suffix test, computed on the character lists. -/
def strEndsWith (p post : String) : Bool := post.data.isSuffixOf p.data

/-- Python `str.lower`, character by character. -/
def strLower (s : String) : String := String.mk (s.data.map Char.toLower)

/-- Index, from the start of a file name, of its last '.', unless that dot is
the first character (Python `PurePath` gives a leading-dot name no suffix). -/
def lastDotIdx (name : List Char) : Option Nat :=
  match name.reverse.findIdx? (· = '.') with
  | none => none
  | some j =>
    let i := name.length - 1 - j
    if i = 0 then none else some i

/-- The final component of a path: the characters after the last '/'. -/
def nameChars (p : List Char) : List Char := (p.reverse.takeWhile (· ≠ '/')).reverse

/-- Everything before the final component, the trailing '/' kept. -/
def dirChars (p : List Char) : List Char := (p.reverse.dropWhile (· ≠ '/')).reverse

/-- Python `PurePath.with_suffix`: drop the final component's suffix (from its
last non-leading '.') and append `ext`. -/
def withSuffix (p : Path) (ext : String) : Path :=
  let cs := p.toList
  let name := nameChars cs
  let stem :=
    match lastDotIdx name with
    | none => name
    | some i => name.take i
  String.mk (dirChars cs ++ stem) ++ ext

/-- `PurePath.parent`, as the engine uses it: the directory part of a path. -/
def parentDir (p : Path) : Path := String.mk (dirChars p.toList)

/-- `PurePath.relative_to`: drop the root and its separator from the front. -/
def relativeTo (root p : Path) : Path := String.mk (p.data.drop (root.data.length + 1))

/-- Python `PurePath.is_absolute` on POSIX: the path starts with '/'. -/
def isAbsolute (p : Path) : Bool := ['/'].isPrefixOf p.data

/-! ## Filesystem state -/

/-- The filesystem as the scripts observe it: the existing files and the
existing directories, each as a list of paths. -/
structure RunState where
  files : List Path
  dirs : List Path
deriving Repr, DecidableEq

/-- `Path.exists` on a file path. -/
def RunState.fileExists (st : RunState) (p : Path) : Bool := st.files.contains p

/-- `Path.mkdir(parents=True, exist_ok=True)`. -/
def RunState.mkdir (st : RunState) (d : Path) : RunState :=
  { st with dirs := d :: st.dirs }

/-- The decoder writing its output file. -/
def RunState.createFile (st : RunState) (p : Path) : RunState :=
  { st with files := p :: st.files }

/-- `Path.unlink`. -/
def RunState.unlink (st : RunState) (p : Path) : RunState :=
  { st with files := st.files.filter (fun q => q != p) }

/-! ## The conversion engine (`Main.py`, `process_audio_files`) -/

/-- Outcome of one `subprocess.run` of the decoder, as the engine
distinguishes them: exit status zero; `CalledProcessError` (recording whether
the decoder left a half-written target file behind and whether a later
`unlink` of it would raise `OSError`); `FileNotFoundError`; any other
exception. -/
inductive DecoderOutcome where
  | exitZero
  | calledProcessError (leftover : Bool) (unlinkFails : Bool)
  | fileNotFound
  | otherException
deriving Repr, DecidableEq

/-- The external decoder as an oracle keyed by the source file path. -/
abbrev Decoder := Path → DecoderOutcome

/-- The summary counters printed at line 176 of `Main.py`. -/
structure Summary where
  success_count : Nat
  skip_count : Nat
  error_count : Nat
deriving Repr, DecidableEq

/-- Mutable state of the per-file loop: the counters, the filesystem, and the
trace of decoder command lines invoked so far, in order. -/
structure LoopState where
  summary : Summary
  st : RunState
  invoked : List (List String)
deriving Repr, DecidableEq

/-- Result of one loop iteration: either the loop continues with an updated
state, or `sys.exit(1)` fires (the `FileNotFoundError` branch, line 170). -/
inductive StepResult where
  | next (l : LoopState)
  | fatal (l : LoopState)
deriving Repr, DecidableEq

/-- Result of `process_audio_files`: the early return when no source files
are found (line 100); the early return when every target already exists
(lines 121-123); a completed loop with its summary, final filesystem and
invocation trace; or the `sys.exit(1)` abort on `FileNotFoundError` with
whatever had been done by then. -/
inductive RunOutcome where
  | noFiles (st : RunState)
  | allConverted (st : RunState)
  | completed (s : Summary) (st : RunState) (invoked : List (List String))
  | fatalNotFound (s : Summary) (st : RunState) (invoked : List (List String))
deriving Repr, DecidableEq

/-- The summary a run reports, if it reports one at all. -/
def RunOutcome.summaryOf : RunOutcome → Option Summary
  | .completed s _ _ => some s
  | _ => none

/-- Lines 132-136: root the relative path under the target directory and
replace the extension. -/
def targetFileFor (sourceRoot targetRoot : Path) (tgtExt : String) (src : Path) : Path :=
  withSuffix (pathJoin targetRoot (relativeTo sourceRoot src)) tgtExt

/-- One iteration of the for-loop (lines 131-173): compute the target file,
create its parent directory, skip when the target exists, otherwise invoke
the decoder with `[cli, "-o", target, source]` and dispatch on the outcome. -/
def processFile (cli : String) (decoder : Decoder) (tgt : Path → Path)
    (l : LoopState) (src : Path) : StepResult :=
  let target_file := tgt src
  let st := l.st.mkdir (parentDir target_file)
  if st.fileExists target_file then
    .next { l with
      summary := { l.summary with skip_count := l.summary.skip_count + 1 }
      st := st }
  else
    let command := [cli, "-o", target_file, src]
    match decoder src with
    | .exitZero =>
      .next { summary := { l.summary with success_count := l.summary.success_count + 1 }
              st := st.createFile target_file
              invoked := l.invoked ++ [command] }
    | .calledProcessError leftover unlinkFails =>
      let st1 := if leftover then st.createFile target_file else st
      let st2 := if leftover && !unlinkFails then st1.unlink target_file else st1
      .next { summary := { l.summary with error_count := l.summary.error_count + 1 }
              st := st2
              invoked := l.invoked ++ [command] }
    | .fileNotFound =>
      .fatal { l with st := st }
    | .otherException =>
      .next { summary := { l.summary with error_count := l.summary.error_count + 1 }
              st := st
              invoked := l.invoked ++ [command] }

/-- The for-loop of lines 131-173 over the discovered source files. -/
def processLoop (cli : String) (decoder : Decoder) (tgt : Path → Path) :
    List Path → LoopState → RunOutcome
  | [], l => .completed l.summary l.st l.invoked
  | src :: rest, l =>
    match processFile cli decoder tgt l src with
    | .next l' => processLoop cli decoder tgt rest l'
    | .fatal l' => .fatalNotFound l'.summary l'.st l'.invoked

/-- `rglob` with pattern `*{src_ext}` under the source root (line 97): the
existing files whose path lies under the root and whose name ends with the
source extension. -/
def discover (st : RunState) (sourceRoot : Path) (srcExt : String) : List Path :=
  st.files.filter (fun p =>
    strStartsWith p (sourceRoot ++ "/") && strEndsWith p srcExt)

/-- `process_audio_files` (lines 89-178): discover the source files, return
early when there are none, count the pre-existing targets, return early when
every target already exists (the count equals the number of source files and
is positive), and otherwise run the per-file loop from zeroed counters. -/
def process_audio_files (cli : String) (decoder : Decoder)
    (sourceRoot targetRoot : Path) (srcExt tgtExt : String) (st : RunState) :
    RunOutcome :=
  let source_files := discover st sourceRoot srcExt
  if source_files.isEmpty then .noFiles st
  else
    let tgt := targetFileFor sourceRoot targetRoot tgtExt
    let pre_existing_target_count :=
      (source_files.filter (fun f => st.fileExists (tgt f))).length
    if pre_existing_target_count = source_files.length then .allConverted st
    else processLoop cli decoder tgt source_files ⟨⟨0, 0, 0⟩, st, []⟩

/-! ## Decoder resolution (`Main.py`, `resolve_vgmstream_cli_path`) -/

/-- The process environment the resolver consults: `shutil.which`, `is_file`
stats on the exact string checked, `Path.resolve` absolutisation, and the
directory holding the script itself. -/
structure Env where
  which : String → Option Path
  isFile : Path → Bool
  resolveAbs : Path → Path
  scriptDir : Path

/-- Which branch of `resolve_vgmstream_cli_path` (lines 31-73) returned, with
the path it produced; `notFound` is the `sys.exit(1)` at line 73, carrying
the reference string and the two directories named by the error message. -/
inductive ResolveResult where
  | fromPATH (p : Path)
  | direct (p : Path)
  | fromProject (p : Path)
  | fromScript (p : Path)
  | notFound (ref : String) (projDir scriptDir : Path)
deriving Repr, DecidableEq

/-- The resolved path, when resolution succeeded. -/
def ResolveResult.pathOf : ResolveResult → Option Path
  | .fromPATH p | .direct p | .fromProject p | .fromScript p => some p
  | .notFound _ _ _ => none

/-- Lines 31-73: try `shutil.which`, then the reference as a direct path,
then (for a relative reference) the project directory and the script
directory, and exit with an error naming every location checked. -/
def resolve_vgmstream_cli_path (env : Env) (cli_ref : String) (proj_dir : Path) :
    ResolveResult :=
  match env.which cli_ref with
  | some p => .fromPATH p
  | none =>
    if env.isFile cli_ref then .direct (env.resolveAbs cli_ref)
    else if !(isAbsolute cli_ref) then
      let potential_path_proj := pathJoin proj_dir cli_ref
      if env.isFile potential_path_proj then
        .fromProject (env.resolveAbs potential_path_proj)
      else
        let potential_path_script := pathJoin env.scriptDir cli_ref
        if env.isFile potential_path_script then
          .fromScript (env.resolveAbs potential_path_script)
        else .notFound cli_ref proj_dir env.scriptDir
    else .notFound cli_ref proj_dir env.scriptDir

/-- Outcome of `run` (lines 21-186): resolution failure (exit 1, nothing
scanned or created), `prepare_directories` failing on a missing source
directory (exit 1), or the engine's outcome. -/
inductive FullOutcome where
  | toolNotFound (ref : String) (projDir scriptDir : Path) (st : RunState)
  | sourceMissing (st : RunState)
  | ran (r : RunOutcome)
deriving Repr, DecidableEq

/-- `run` (lines 21-186): resolve the decoder first (line 75); only then
validate the source directory and create the target directory
(`prepare_directories`, lines 77-87), and finally process the files. -/
def run (env : Env) (decoder : Decoder)
    (audio_source_dir audio_target_dir : Path) (cli_ref : String)
    (srcExt tgtExt : String) (proj_dir : Path) (st : RunState) : FullOutcome :=
  match resolve_vgmstream_cli_path env cli_ref proj_dir with
  | .notFound r pd sd => .toolNotFound r pd sd st
  | res =>
    let cli := res.pathOf.getD ""
    if !(st.dirs.contains audio_source_dir) then .sourceMissing st
    else
      let st1 := st.mkdir audio_target_dir
      .ran (process_audio_files cli decoder audio_source_dir audio_target_dir
        srcExt tgtExt st1)

/-! ## The directory classifier (`setup.py`, `organize_source_directories`) -/

/-- An immediate child of the audio source directory, as `iterdir` yields
it: its name and whether it is a directory. -/
structure Entry where
  name : String
  isDir : Bool
deriving Repr, DecidableEq

/-- State of the source root during organisation: the entries still directly
under the root, and the entry names already inside each bucket. -/
structure OrgState where
  rootEntries : List Entry
  enEntries : List String
  globalEntries : List String
deriving Repr, DecidableEq

/-- The counters printed at line 72 of `setup.py`. -/
structure OrgCounts where
  moved_count : Nat
  skipped_count : Nat
  error_count : Nat
deriving Repr, DecidableEq

/-- The two destination buckets, `EN` and `Global`. -/
inductive Bucket where
  | en
  | global
deriving Repr, DecidableEq

/-- Lines 49-55: a directory name is skipped when it equals a bucket name or
its lowercasing is in the blacklist; otherwise it is routed to `Global`
exactly when it is a member of `global_dirs`, and to `EN` otherwise. -/
def classifyDir (language_blacklist global_dirs : List String) (name : String) :
    Option Bucket :=
  if name = "EN" || name = "Global" || language_blacklist.contains (strLower name) then
    none
  else if global_dirs.contains name then some .global
  else some .en

/-- The names already inside a bucket. -/
def bucketContents (st : OrgState) : Bucket → List String
  | .en => st.enEntries
  | .global => st.globalEntries

/-- `shutil.move` of an entry into a bucket: it leaves the root and its name
joins the bucket's contents. -/
def moveInto (st : OrgState) (item : Entry) : Bucket → OrgState
  | .en =>
    { st with rootEntries := st.rootEntries.erase item
              enEntries := item.name :: st.enEntries }
  | .global =>
    { st with rootEntries := st.rootEntries.erase item
              globalEntries := item.name :: st.globalEntries }

/-- One iteration of the `iterdir` loop (lines 46-69): non-directories are
ignored; a bucket-named or blacklisted directory is skipped; a directory
whose destination already holds its name is skipped with a warning; otherwise
the move runs, and `move_fails` models `shutil.move` raising (line 67). -/
def organize_step (language_blacklist global_dirs : List String)
    (move_fails : String → Bool) (acc : OrgState × OrgCounts) (item : Entry) :
    OrgState × OrgCounts :=
  let (st, c) := acc
  if item.isDir then
    match classifyDir language_blacklist global_dirs item.name with
    | none => (st, { c with skipped_count := c.skipped_count + 1 })
    | some b =>
      if (bucketContents st b).contains item.name then
        (st, { c with skipped_count := c.skipped_count + 1 })
      else if move_fails item.name then
        (st, { c with error_count := c.error_count + 1 })
      else (moveInto st item b, { c with moved_count := c.moved_count + 1 })
  else acc

/-- The full loop of lines 46-69, folded over the `iterdir` snapshot of the
root's entries. -/
def organize_source_directories (language_blacklist global_dirs : List String)
    (move_fails : String → Bool) (st0 : OrgState) : OrgState × OrgCounts :=
  st0.rootEntries.foldl (organize_step language_blacklist global_dirs move_fails)
    (st0, ⟨0, 0, 0⟩)

/-- Line 97 of `setup.py`: blacklist keys are lowercased as they are loaded
from the configuration. -/
def loadBlacklist (keys : List String) : List String := keys.map strLower

/-! ## General lemmas about the model -/

theorem fileExists_mkdir (st : RunState) (d p : Path) :
    (st.mkdir d).fileExists p = st.fileExists p := rfl

theorem fileExists_createFile_ne (st : RunState) (t p : Path) (h : p ≠ t) :
    (st.createFile t).fileExists p = st.fileExists p := by
  simp [RunState.createFile, RunState.fileExists, List.contains, h]

theorem fileExists_unlink_ne (st : RunState) (t p : Path) (h : p ≠ t) :
    (st.unlink t).fileExists p = st.fileExists p := by
  simp [RunState.unlink, RunState.fileExists, List.contains, List.mem_filter, h]

/-! ## Claims about decoder resolution -/

/-- C3: resolution tries exactly four strategies in order and the first
match wins: the result is `fromPATH` exactly when `shutil.which` succeeds;
`direct` exactly when `which` failed and the reference itself names an
existing file; `fromProject` exactly when both earlier strategies failed,
the reference is relative and it exists under the project directory;
`fromScript` exactly when all three failed and it exists under the script
directory; and resolution fails in exactly the remaining cases. -/
theorem c3_resolution_order (env : Env) (ref : String) (proj : Path) :
    (∀ p, resolve_vgmstream_cli_path env ref proj = .fromPATH p ↔
      env.which ref = some p) ∧
    (∀ p, resolve_vgmstream_cli_path env ref proj = .direct p ↔
      env.which ref = none ∧ env.isFile ref = true ∧ p = env.resolveAbs ref) ∧
    (∀ p, resolve_vgmstream_cli_path env ref proj = .fromProject p ↔
      env.which ref = none ∧ env.isFile ref = false ∧ isAbsolute ref = false ∧
      env.isFile (pathJoin proj ref) = true ∧
      p = env.resolveAbs (pathJoin proj ref)) ∧
    (∀ p, resolve_vgmstream_cli_path env ref proj = .fromScript p ↔
      env.which ref = none ∧ env.isFile ref = false ∧ isAbsolute ref = false ∧
      env.isFile (pathJoin proj ref) = false ∧
      env.isFile (pathJoin env.scriptDir ref) = true ∧
      p = env.resolveAbs (pathJoin env.scriptDir ref)) ∧
    (resolve_vgmstream_cli_path env ref proj = .notFound ref proj env.scriptDir ↔
      env.which ref = none ∧ env.isFile ref = false ∧
      (isAbsolute ref = true ∨
        (env.isFile (pathJoin proj ref) = false ∧
         env.isFile (pathJoin env.scriptDir ref) = false))) := by
  refine ⟨?_, ?_, ?_, ?_, ?_⟩ <;>
    (try intro p) <;>
    (unfold resolve_vgmstream_cli_path;
     cases hw : env.which ref <;>
       cases hf : env.isFile ref <;>
         cases ha : isAbsolute ref <;>
           cases hp : env.isFile (pathJoin proj ref) <;>
             cases hs : env.isFile (pathJoin env.scriptDir ref) <;>
               simp [hw, hf, ha, hp, hs, eq_comm])

/-- C4: when resolution fails, `run` exits immediately with the failure,
reporting the reference and the directories checked, and the filesystem it
leaves behind is exactly the one it started from — no source directory was
scanned, no target directory created, no file converted. -/
theorem c4_tool_missing_aborts_run (env : Env) (decoder : Decoder)
    (srcDir tgtDir : Path) (ref : String) (srcExt tgtExt : String)
    (proj : Path) (st : RunState)
    (h : resolve_vgmstream_cli_path env ref proj =
      .notFound ref proj env.scriptDir) :
    run env decoder srcDir tgtDir ref srcExt tgtExt proj st =
      .toolNotFound ref proj env.scriptDir st := by
  unfold run
  rw [h]

/-- Witness for C4: a concrete environment in which nothing resolves. -/
theorem c4_tool_missing_aborts_run_witness :
    run ⟨fun _ => none, fun _ => false, id, "/opt/tool"⟩ (fun _ => .exitZero)
        "/s" "/t" "vgmstream-cli" ".snu" ".wav" "/proj" ⟨["/s/a.snu"], ["/s"]⟩ =
      .toolNotFound "vgmstream-cli" "/proj" "/opt/tool" ⟨["/s/a.snu"], ["/s"]⟩ :=
  c4_tool_missing_aborts_run ⟨fun _ => none, fun _ => false, id, "/opt/tool"⟩
    (fun _ => .exitZero) "/s" "/t" "vgmstream-cli" ".snu" ".wav" "/proj"
    ⟨["/s/a.snu"], ["/s"]⟩ (by decide)

/-! ## Claims about the conversion loop -/

/-- C6: when the decoder invocation for a file raises `FileNotFoundError`
(the resolved executable vanished between resolution and use), the loop
aborts at once with `sys.exit(1)`: the remaining queue is dropped, the
counters are left exactly as they were before the file (in particular the
error counter is not incremented), and only the target's parent directory
creation has happened. -/
theorem c6_vanished_decoder_is_fatal (cli : String) (decoder : Decoder)
    (tgt : Path → Path) (l : LoopState) (src : Path) (rest : List Path)
    (hmiss : l.st.fileExists (tgt src) = false)
    (hnf : decoder src = .fileNotFound) :
    processLoop cli decoder tgt (src :: rest) l =
      .fatalNotFound l.summary (l.st.mkdir (parentDir (tgt src))) l.invoked := by
  have hmiss' : (l.st.mkdir (parentDir (tgt src))).fileExists (tgt src) = false :=
    hmiss
  simp [processLoop, processFile, hmiss', hnf]

/-- Witness for C6: one pending file after the vanished invocation is
dropped unprocessed. -/
theorem c6_vanished_decoder_is_fatal_witness :
    processLoop "vgm" (fun _ => .fileNotFound)
        (targetFileFor "/s" "/t" ".wav") ["/s/a.snu", "/s/b.snu"]
        ⟨⟨0, 0, 0⟩, ⟨["/s/a.snu", "/s/b.snu"], ["/s", "/t"]⟩, []⟩ =
      .fatalNotFound ⟨0, 0, 0⟩
        ⟨["/s/a.snu", "/s/b.snu"], ["/t/", "/s", "/t"]⟩ [] :=
  c6_vanished_decoder_is_fatal "vgm" (fun _ => .fileNotFound)
    (targetFileFor "/s" "/t" ".wav") ⟨⟨0, 0, 0⟩, ⟨["/s/a.snu", "/s/b.snu"], ["/s", "/t"]⟩, []⟩
    "/s/a.snu" ["/s/b.snu"] (by decide) (by decide)

/-! ## Claims about the directory classifier -/

/-- C7: when the destination bucket already holds an entry with the same
name, the step skips the move: the skipped counter is incremented, the moved
and error counters are untouched, and the whole state — the source root's
entries and both buckets' contents — is left exactly as it was, so nothing
is overwritten or merged. -/
theorem c7_collision_never_overwrites (bl gd : List String)
    (mf : String → Bool) (st : OrgState) (c : OrgCounts) (item : Entry)
    (b : Bucket) (hdir : item.isDir = true)
    (hcls : classifyDir bl gd item.name = some b)
    (hcoll : item.name ∈ bucketContents st b) :
    organize_step bl gd mf (st, c) item =
      (st, { c with skipped_count := c.skipped_count + 1 }) := by
  simp [organize_step, hdir, hcls, hcoll]

/-- Witness for C7: the already-bucketed directory `Music` is skipped. -/
theorem c7_collision_never_overwrites_witness :
    organize_step ["de"] ["Music"] (fun _ => false)
        (⟨[⟨"Music", true⟩], ["Voice"], ["Music"]⟩, ⟨0, 0, 0⟩) ⟨"Music", true⟩ =
      (⟨[⟨"Music", true⟩], ["Voice"], ["Music"]⟩, ⟨0, 1, 0⟩) :=
  c7_collision_never_overwrites ["de"] ["Music"] (fun _ => false)
    ⟨[⟨"Music", true⟩], ["Voice"], ["Music"]⟩ ⟨0, 0, 0⟩ ⟨"Music", true⟩
    .global (by decide) (by decide) (by simp [bucketContents])

/-- C8: with a blacklist whose entries are lowercase — exactly how
`setup.main` loads it — a directory name is skipped iff it equals a bucket
name or matches a blacklist entry case-insensitively; otherwise it is
routed to exactly one bucket, `Global` iff it belongs to the global set and
`EN` otherwise; and a skipped name only increments the skipped counter,
leaving the state untouched. -/
theorem c8_partition (bl gd : List String) (mf : String → Bool) (name : String)
    (hlower : ∀ b ∈ bl, strLower b = b) :
    (classifyDir bl gd name = none ↔
      name = "EN" ∨ name = "Global" ∨ ∃ b ∈ bl, strLower name = strLower b) ∧
    (classifyDir bl gd name = some .global ↔
      ¬(name = "EN" ∨ name = "Global" ∨ ∃ b ∈ bl, strLower name = strLower b) ∧
      name ∈ gd) ∧
    (classifyDir bl gd name = some .en ↔
      ¬(name = "EN" ∨ name = "Global" ∨ ∃ b ∈ bl, strLower name = strLower b) ∧
      name ∉ gd) ∧
    (∀ st c, classifyDir bl gd name = none →
      organize_step bl gd mf (st, c) ⟨name, true⟩ =
        (st, { c with skipped_count := c.skipped_count + 1 })) := by
  have hbl : bl.contains (strLower name) = true ↔
      ∃ b ∈ bl, strLower name = strLower b := by
    constructor
    · intro h
      have hm : strLower name ∈ bl := by simpa [List.contains] using h
      exact ⟨strLower name, hm, by rw [hlower _ hm]⟩
    · rintro ⟨b, hb, he⟩
      have he' : strLower name = b := by rw [he, hlower b hb]
      simp [List.contains, he', hb]
  refine ⟨?_, ?_, ?_, ?_⟩
  · by_cases h1 : name = "EN" <;> by_cases h2 : name = "Global" <;>
      cases hc : bl.contains (strLower name) <;>
        cases hg : gd.contains name <;>
          simp_all [classifyDir, List.contains]
  · by_cases h1 : name = "EN" <;> by_cases h2 : name = "Global" <;>
      cases hc : bl.contains (strLower name) <;>
        cases hg : gd.contains name <;>
          simp_all [classifyDir, List.contains]
  · by_cases h1 : name = "EN" <;> by_cases h2 : name = "Global" <;>
      cases hc : bl.contains (strLower name) <;>
        cases hg : gd.contains name <;>
          simp_all [classifyDir, List.contains]
  · intro st c hcls
    simp [organize_step, hcls]

/-- Witness for C8: a lowercase blacklist, with `DE` blacklisted
case-insensitively. -/
theorem c8_partition_witness :
    (classifyDir ["de"] ["Music"] "DE" = none ↔
      "DE" = "EN" ∨ "DE" = "Global" ∨
        ∃ b ∈ ["de"], strLower "DE" = strLower b) ∧
    (classifyDir ["de"] ["Music"] "DE" = some .global ↔
      ¬("DE" = "EN" ∨ "DE" = "Global" ∨
        ∃ b ∈ ["de"], strLower "DE" = strLower b) ∧ "DE" ∈ ["Music"]) ∧
    (classifyDir ["de"] ["Music"] "DE" = some .en ↔
      ¬("DE" = "EN" ∨ "DE" = "Global" ∨
        ∃ b ∈ ["de"], strLower "DE" = strLower b) ∧ "DE" ∉ ["Music"]) ∧
    (∀ st c, classifyDir ["de"] ["Music"] "DE" = none →
      organize_step ["de"] ["Music"] (fun _ => false) (st, c) ⟨"DE", true⟩ =
        (st, { c with skipped_count := c.skipped_count + 1 })) :=
  c8_partition ["de"] ["Music"] (fun _ => false) "DE" (by decide)

/-- C10: a non-directory entry immediately under the source root is ignored
by the classification loop: the step leaves the entry in place, both buckets
unchanged, and none of the moved, skipped or error counters incremented. -/
theorem c10_files_ignored (bl gd : List String) (mf : String → Bool)
    (st : OrgState) (c : OrgCounts) (item : Entry)
    (hfile : item.isDir = false) :
    organize_step bl gd mf (st, c) item = (st, c) := by
  simp [organize_step, hfile]

/-- Witness for C10: a stray regular file under the source root. -/
theorem c10_files_ignored_witness :
    organize_step ["de"] ["Music"] (fun _ => false)
        (⟨[⟨"readme.txt", false⟩], [], []⟩, ⟨0, 0, 0⟩) ⟨"readme.txt", false⟩ =
      (⟨[⟨"readme.txt", false⟩], [], []⟩, ⟨0, 0, 0⟩) :=
  c10_files_ignored ["de"] ["Music"] (fun _ => false)
    ⟨[⟨"readme.txt", false⟩], [], []⟩ ⟨0, 0, 0⟩ ⟨"readme.txt", false⟩ (by decide)

/-! ## Step lemmas for the conversion loop -/

/-- A continuing step increments exactly one of the three counters. -/
theorem processFile_next_sum (cli : String) (decoder : Decoder)
    (tgt : Path → Path) (l : LoopState) (src : Path) (l' : LoopState)
    (h : processFile cli decoder tgt l src = .next l') :
    l'.summary.success_count + l'.summary.skip_count + l'.summary.error_count =
      l.summary.success_count + l.summary.skip_count + l.summary.error_count
        + 1 := by
  unfold processFile at h
  by_cases hex : (l.st.mkdir (parentDir (tgt src))).fileExists (tgt src) = true
  · rw [if_pos hex] at h
    cases h
    simp
    omega
  · rw [if_neg hex] at h
    cases hd : decoder src <;> rw [hd] at h <;> cases h <;> simp <;> omega

/-- A continuing step never decreases the error counter. -/
theorem processFile_next_error_mono (cli : String) (decoder : Decoder)
    (tgt : Path → Path) (l : LoopState) (src : Path) (l' : LoopState)
    (h : processFile cli decoder tgt l src = .next l') :
    l.summary.error_count ≤ l'.summary.error_count := by
  unfold processFile at h
  by_cases hex : (l.st.mkdir (parentDir (tgt src))).fileExists (tgt src) = true
  · rw [if_pos hex] at h
    cases h
    simp
  · rw [if_neg hex] at h
    cases hd : decoder src <;> rw [hd] at h <;> cases h <;> simp

/-- A continuing step changes the file set only at the file's own target
path. -/
theorem processFile_next_frame (cli : String) (decoder : Decoder)
    (tgt : Path → Path) (l : LoopState) (src : Path) (l' : LoopState)
    (h : processFile cli decoder tgt l src = .next l') :
    ∀ q, q ≠ tgt src → l'.st.fileExists q = l.st.fileExists q := by
  intro q hq
  unfold processFile at h
  by_cases hex : (l.st.mkdir (parentDir (tgt src))).fileExists (tgt src) = true
  · rw [if_pos hex] at h
    cases h
    rfl
  · rw [if_neg hex] at h
    cases hd : decoder src <;> rw [hd] at h <;> cases h
    · exact fileExists_createFile_ne _ _ _ hq
    · rename_i lft ulf
      by_cases hl : lft = true <;> by_cases hu : ulf = true <;>
        simp only [hl, hu] <;> simp [fileExists_createFile_ne _ _ _ hq,
          fileExists_unlink_ne _ _ _ hq, fileExists_mkdir]
    · rfl

/-- A continuing step that leaves the error counter alone was a skip or a
success: existing files persist and the file's target now exists. -/
theorem processFile_next_no_error (cli : String) (decoder : Decoder)
    (tgt : Path → Path) (l : LoopState) (src : Path) (l' : LoopState)
    (h : processFile cli decoder tgt l src = .next l')
    (herr : l'.summary.error_count = l.summary.error_count) :
    (∀ q, l.st.fileExists q = true → l'.st.fileExists q = true) ∧
    l'.st.fileExists (tgt src) = true := by
  unfold processFile at h
  by_cases hex : (l.st.mkdir (parentDir (tgt src))).fileExists (tgt src) = true
  · rw [if_pos hex] at h
    cases h
    exact ⟨fun q hq => hq, hex⟩
  · rw [if_neg hex] at h
    cases hd : decoder src <;> rw [hd] at h <;> cases h
    · refine ⟨fun q hq => ?_, ?_⟩ <;>
        simp_all [RunState.createFile, RunState.mkdir, RunState.fileExists,
          List.contains]
    · simp at herr
    · simp at herr

/-- The skip branch of the loop body: when the target already exists, the
step bumps only the skipped counter, invokes nothing, and touches no file. -/
theorem processFile_skip (cli : String) (decoder : Decoder) (tgt : Path → Path)
    (l : LoopState) (src : Path)
    (hex : l.st.fileExists (tgt src) = true) :
    processFile cli decoder tgt l src = .next
      ⟨{ l.summary with skip_count := l.summary.skip_count + 1 },
       l.st.mkdir (parentDir (tgt src)), l.invoked⟩ := by
  have hex' : (l.st.mkdir (parentDir (tgt src))).fileExists (tgt src) = true := hex
  simp [processFile, hex']

/-- The conversion branch of the loop body: when the target is missing and
the decoder does not vanish, the step invokes exactly one decoder command,
bumps the success or error counter, leaves the skipped counter alone, and
changes the file set at most at this file's target. -/
theorem processFile_convert (cli : String) (decoder : Decoder)
    (tgt : Path → Path) (l : LoopState) (src : Path)
    (hex : l.st.fileExists (tgt src) = false)
    (hd : decoder src ≠ .fileNotFound) :
    ∃ l', processFile cli decoder tgt l src = .next l' ∧
      l'.summary.skip_count = l.summary.skip_count ∧
      l'.summary.success_count + l'.summary.error_count =
        l.summary.success_count + l.summary.error_count + 1 ∧
      l'.invoked = l.invoked ++ [[cli, "-o", tgt src, src]] ∧
      (∀ q, q ≠ tgt src → l'.st.fileExists q = l.st.fileExists q) := by
  have hex' : (l.st.mkdir (parentDir (tgt src))).fileExists (tgt src) = false :=
    hex
  cases hdc : decoder src with
  | exitZero =>
    refine ⟨_, by rw [processFile, if_neg (by simp [hex']), hdc], by simp,
      by simp; omega, by simp, fun q hq => ?_⟩
    simp [fileExists_createFile_ne _ _ _ hq, fileExists_mkdir]
  | calledProcessError lft ulf =>
    refine ⟨_, by rw [processFile, if_neg (by simp [hex']), hdc], by simp,
      by simp; omega, by simp, fun q hq => ?_⟩
    by_cases hl : lft = true <;> by_cases hu : ulf = true <;>
      simp only [hl, hu] <;>
        simp [fileExists_createFile_ne _ _ _ hq,
          fileExists_unlink_ne _ _ _ hq, fileExists_mkdir]
  | fileNotFound => exact absurd hdc hd
  | otherException =>
    refine ⟨⟨{ l.summary with error_count := l.summary.error_count + 1 },
      l.st.mkdir (parentDir (tgt src)), l.invoked ++ [[cli, "-o", tgt src, src]]⟩,
      by rw [processFile, if_neg (by simp [hex']), hdc], by simp,
      by simp; omega, by simp, fun q hq => rfl⟩

/-- Unlinking a path removes it. -/
theorem fileExists_unlink_self (st : RunState) (t : Path) :
    (st.unlink t).fileExists t = false := by
  simp [RunState.unlink, RunState.fileExists, List.contains, List.mem_filter]

/-- A target path that is absent and that no remaining file maps to stays
absent through to completion of the loop. -/
theorem processLoop_preserves_absent (cli : String) (decoder : Decoder)
    (tgt : Path → Path) (t : Path) :
    ∀ (files : List Path) (l : LoopState),
      (∀ g ∈ files, tgt g ≠ t) → l.st.fileExists t = false →
      ∀ s st' inv,
        processLoop cli decoder tgt files l = .completed s st' inv →
        st'.fileExists t = false := by
  intro files
  induction files with
  | nil =>
    intro l _ habs s st' inv h
    simp only [processLoop, RunOutcome.completed.injEq] at h
    obtain ⟨rfl, rfl, rfl⟩ := h
    exact habs
  | cons src rest ih =>
    intro l hne habs s st' inv h
    rw [processLoop] at h
    cases hstep : processFile cli decoder tgt l src with
    | fatal l' =>
      rw [hstep] at h
      simp at h
    | next l' =>
      rw [hstep] at h
      refine ih l' (fun g hg => hne g (List.mem_cons_of_mem _ hg)) ?_ s st' inv h
      rw [processFile_next_frame cli decoder tgt l src l' hstep t
        (Ne.symm (hne src (List.mem_cons_self _ _)))]
      exact habs

/-- The error counter never decreases along the loop. -/
theorem processLoop_error_mono (cli : String) (decoder : Decoder)
    (tgt : Path → Path) :
    ∀ (files : List Path) (l : LoopState) (s : Summary) (st' : RunState)
      (inv : List (List String)),
      processLoop cli decoder tgt files l = .completed s st' inv →
      l.summary.error_count ≤ s.error_count := by
  intro files
  induction files with
  | nil =>
    intro l s st' inv h
    simp only [processLoop, RunOutcome.completed.injEq] at h
    obtain ⟨rfl, rfl, rfl⟩ := h
    exact Nat.le_refl _
  | cons src rest ih =>
    intro l s st' inv h
    rw [processLoop] at h
    cases hstep : processFile cli decoder tgt l src with
    | fatal l' =>
      rw [hstep] at h
      simp at h
    | next l' =>
      rw [hstep] at h
      exact Nat.le_trans
        (processFile_next_error_mono cli decoder tgt l src l' hstep)
        (ih l' s st' inv h)

/-- A completed loop with no new errors preserves existing files and ends
with every processed file's target present. -/
theorem processLoop_no_error_targets (cli : String) (decoder : Decoder)
    (tgt : Path → Path) :
    ∀ (files : List Path) (l : LoopState) (s : Summary) (st' : RunState)
      (inv : List (List String)),
      processLoop cli decoder tgt files l = .completed s st' inv →
      s.error_count = l.summary.error_count →
      (∀ q, l.st.fileExists q = true → st'.fileExists q = true) ∧
      ∀ f ∈ files, st'.fileExists (tgt f) = true := by
  intro files
  induction files with
  | nil =>
    intro l s st' inv h _
    simp only [processLoop, RunOutcome.completed.injEq] at h
    obtain ⟨rfl, rfl, rfl⟩ := h
    exact ⟨fun q hq => hq, by simp⟩
  | cons src rest ih =>
    intro l s st' inv h herr
    rw [processLoop] at h
    cases hstep : processFile cli decoder tgt l src with
    | fatal l' =>
      rw [hstep] at h
      simp at h
    | next l' =>
      rw [hstep] at h
      have hmono := processLoop_error_mono cli decoder tgt rest l' s st' inv h
      have hsmono := processFile_next_error_mono cli decoder tgt l src l' hstep
      have herr' : l'.summary.error_count = l.summary.error_count := by omega
      have hrest := ih l' s st' inv h (by omega)
      obtain ⟨hkeep, htgt⟩ :=
        processFile_next_no_error cli decoder tgt l src l' hstep herr'
      refine ⟨fun q hq => hrest.1 q (hkeep q hq), fun f hf => ?_⟩
      rcases List.mem_cons.mp hf with rfl | hf'
      · exact hrest.1 _ htgt
      · exact hrest.2 f hf'

/-- The loop, when it completes, has put each file into exactly one
counter. -/
theorem processLoop_completed_sum (cli : String) (decoder : Decoder)
    (tgt : Path → Path) :
    ∀ (files : List Path) (l : LoopState) (s : Summary) (st' : RunState)
      (inv : List (List String)),
      processLoop cli decoder tgt files l = .completed s st' inv →
      s.success_count + s.skip_count + s.error_count =
        l.summary.success_count + l.summary.skip_count +
          l.summary.error_count + files.length := by
  intro files
  induction files with
  | nil =>
    intro l s st' inv h
    simp only [processLoop, RunOutcome.completed.injEq] at h
    obtain ⟨rfl, rfl, rfl⟩ := h
    simp
  | cons src rest ih =>
    intro l s st' inv h
    rw [processLoop] at h
    cases hstep : processFile cli decoder tgt l src with
    | next l' =>
      rw [hstep] at h
      have h1 := ih l' s st' inv h
      have h2 := processFile_next_sum cli decoder tgt l src l' hstep
      simp only [List.length_cons]
      omega
    | fatal l' =>
      rw [hstep] at h
      simp at h

/-- C9: whenever the per-file loop runs to completion over the discovered
source files — no mid-run fatal abort — every file is accounted for exactly
once: the success, skipped and error counters sum to the number of files
found. -/
theorem c9_summary_accounts_for_all (cli : String) (decoder : Decoder)
    (tgt : Path → Path) (files : List Path) (st : RunState) (s : Summary)
    (st' : RunState) (inv : List (List String))
    (h : processLoop cli decoder tgt files ⟨⟨0, 0, 0⟩, st, []⟩ =
      .completed s st' inv) :
    s.success_count + s.skip_count + s.error_count = files.length := by
  have h1 := processLoop_completed_sum cli decoder tgt files
    ⟨⟨0, 0, 0⟩, st, []⟩ s st' inv h
  simpa using h1

/-- Witness for C9: two files, both converted, counters summing to two. -/
theorem c9_summary_accounts_for_all_witness :
    Summary.success_count ⟨2, 0, 0⟩ + Summary.skip_count ⟨2, 0, 0⟩ +
        Summary.error_count ⟨2, 0, 0⟩ =
      (["/s/a.snu", "/s/b/c.snu"] : List Path).length :=
  c9_summary_accounts_for_all "vgm" (fun _ => .exitZero)
    (targetFileFor "/s" "/t" ".wav") ["/s/a.snu", "/s/b/c.snu"]
    ⟨["/s/a.snu", "/s/b/c.snu"], ["/s", "/t"]⟩ ⟨2, 0, 0⟩
    ⟨["/t/b/c.wav", "/t/a.wav", "/s/a.snu", "/s/b/c.snu"],
      ["/t/b/", "/t/", "/s", "/t"]⟩
    [["vgm", "-o", "/t/a.wav", "/s/a.snu"],
     ["vgm", "-o", "/t/b/c.wav", "/s/b/c.snu"]]
    (by decide)

/-- C5: a `CalledProcessError` is isolated to its file: the step bumps only
the error counter, records the invoked command line, and the loop continues
with the remaining files rather than aborting — also when the cleanup
`unlink` fails, which is a warning only; when the cleanup does not fail, the
failed file's target does not exist after the step, nor at the end of the
run provided no later file shares that target. -/
theorem c5_failed_conversion_isolated (cli : String) (decoder : Decoder)
    (tgt : Path → Path) (l : LoopState) (src : Path) (rest : List Path)
    (lft ulf : Bool)
    (hex : l.st.fileExists (tgt src) = false)
    (hd : decoder src = .calledProcessError lft ulf) :
    ∃ l', processFile cli decoder tgt l src = .next l' ∧
      l'.summary =
        { l.summary with error_count := l.summary.error_count + 1 } ∧
      l'.invoked = l.invoked ++ [[cli, "-o", tgt src, src]] ∧
      processLoop cli decoder tgt (src :: rest) l =
        processLoop cli decoder tgt rest l' ∧
      (ulf = false → l'.st.fileExists (tgt src) = false) ∧
      (ulf = false → (∀ g ∈ rest, tgt g ≠ tgt src) →
        ∀ s st' inv,
          processLoop cli decoder tgt rest l' = .completed s st' inv →
          st'.fileExists (tgt src) = false) := by
  have hex' : (l.st.mkdir (parentDir (tgt src))).fileExists (tgt src) = false :=
    hex
  cases lft <;> cases ulf
  · have hstep : processFile cli decoder tgt l src = .next
        ⟨{ l.summary with error_count := l.summary.error_count + 1 },
          l.st.mkdir (parentDir (tgt src)),
          l.invoked ++ [[cli, "-o", tgt src, src]]⟩ := by
      simp [processFile, hex', hd]
    refine ⟨_, hstep, rfl, rfl, by rw [processLoop, hstep], fun _ => hex, ?_⟩
    intro _ hne s st' inv hloop
    exact processLoop_preserves_absent cli decoder tgt (tgt src) rest
      ⟨{ l.summary with error_count := l.summary.error_count + 1 },
        l.st.mkdir (parentDir (tgt src)),
        l.invoked ++ [[cli, "-o", tgt src, src]]⟩
      hne hex s st' inv hloop
  · have hstep : processFile cli decoder tgt l src = .next
        ⟨{ l.summary with error_count := l.summary.error_count + 1 },
          l.st.mkdir (parentDir (tgt src)),
          l.invoked ++ [[cli, "-o", tgt src, src]]⟩ := by
      simp [processFile, hex', hd]
    exact ⟨_, hstep, rfl, rfl, by rw [processLoop, hstep],
      fun h => absurd h (by simp), fun h => absurd h (by simp)⟩
  · have hstep : processFile cli decoder tgt l src = .next
        ⟨{ l.summary with error_count := l.summary.error_count + 1 },
          ((l.st.mkdir (parentDir (tgt src))).createFile (tgt src)).unlink
            (tgt src),
          l.invoked ++ [[cli, "-o", tgt src, src]]⟩ := by
      simp [processFile, hex', hd]
    refine ⟨_, hstep, rfl, rfl, by rw [processLoop, hstep],
      fun _ => fileExists_unlink_self _ _, ?_⟩
    intro _ hne s st' inv hloop
    exact processLoop_preserves_absent cli decoder tgt (tgt src) rest
      ⟨{ l.summary with error_count := l.summary.error_count + 1 },
        ((l.st.mkdir (parentDir (tgt src))).createFile (tgt src)).unlink
          (tgt src),
        l.invoked ++ [[cli, "-o", tgt src, src]]⟩
      hne (fileExists_unlink_self _ _) s st' inv hloop
  · have hstep : processFile cli decoder tgt l src = .next
        ⟨{ l.summary with error_count := l.summary.error_count + 1 },
          (l.st.mkdir (parentDir (tgt src))).createFile (tgt src),
          l.invoked ++ [[cli, "-o", tgt src, src]]⟩ := by
      simp [processFile, hex', hd]
    exact ⟨_, hstep, rfl, rfl, by rw [processLoop, hstep],
      fun h => absurd h (by simp), fun h => absurd h (by simp)⟩

/-- Witness for C5: the decoder fails on the first of two files, leaving a
partial target behind that the cleanup removes. -/
theorem c5_failed_conversion_isolated_witness :
    ∃ l', processFile "vgm"
        (fun f => if f = "/s/a.snu" then .calledProcessError true false
          else .exitZero)
        (targetFileFor "/s" "/t" ".wav")
        ⟨⟨0, 0, 0⟩, ⟨["/s/a.snu", "/s/b.snu"], ["/s", "/t"]⟩, []⟩ "/s/a.snu" =
        .next l' ∧
      l'.summary = { (⟨0, 0, 0⟩ : Summary) with error_count := 0 + 1 } ∧
      l'.invoked = [] ++ [["vgm", "-o",
        targetFileFor "/s" "/t" ".wav" "/s/a.snu", "/s/a.snu"]] ∧
      processLoop "vgm"
        (fun f => if f = "/s/a.snu" then .calledProcessError true false
          else .exitZero)
        (targetFileFor "/s" "/t" ".wav") ["/s/a.snu", "/s/b.snu"]
        ⟨⟨0, 0, 0⟩, ⟨["/s/a.snu", "/s/b.snu"], ["/s", "/t"]⟩, []⟩ =
      processLoop "vgm"
        (fun f => if f = "/s/a.snu" then .calledProcessError true false
          else .exitZero)
        (targetFileFor "/s" "/t" ".wav") ["/s/b.snu"] l' ∧
      (false = false →
        l'.st.fileExists (targetFileFor "/s" "/t" ".wav" "/s/a.snu") = false) ∧
      (false = false →
        (∀ g ∈ ["/s/b.snu"], targetFileFor "/s" "/t" ".wav" g ≠
          targetFileFor "/s" "/t" ".wav" "/s/a.snu") →
        ∀ s st' inv,
          processLoop "vgm"
            (fun f => if f = "/s/a.snu" then .calledProcessError true false
              else .exitZero)
            (targetFileFor "/s" "/t" ".wav") ["/s/b.snu"] l' =
            .completed s st' inv →
          st'.fileExists (targetFileFor "/s" "/t" ".wav" "/s/a.snu") = false) :=
  c5_failed_conversion_isolated "vgm"
    (fun f => if f = "/s/a.snu" then .calledProcessError true false
      else .exitZero)
    (targetFileFor "/s" "/t" ".wav")
    ⟨⟨0, 0, 0⟩, ⟨["/s/a.snu", "/s/b.snu"], ["/s", "/t"]⟩, []⟩ "/s/a.snu"
    ["/s/b.snu"] true false (by decide) (by decide)

/-- C2 counterexample: a first fully successful run over one source file,
after which the second run over the unchanged tree returns the
`all files appear to be already converted` early exit and reports no summary
at all — in particular not `succeeded = 0, skipped = 1` as the claim
states. -/
theorem c2_counterexample_no_second_summary :
    process_audio_files "vgm" (fun _ => .exitZero) "/s" "/t" ".snu" ".wav"
        ⟨["/s/a.snu"], ["/s", "/t"]⟩ =
      .completed ⟨1, 0, 0⟩ ⟨["/t/a.wav", "/s/a.snu"], ["/t/", "/s", "/t"]⟩
        [["vgm", "-o", "/t/a.wav", "/s/a.snu"]] ∧
    process_audio_files "vgm" (fun _ => .exitZero) "/s" "/t" ".snu" ".wav"
        ⟨["/t/a.wav", "/s/a.snu"], ["/t/", "/s", "/t"]⟩ =
      .allConverted ⟨["/t/a.wav", "/s/a.snu"], ["/t/", "/s", "/t"]⟩ ∧
    (process_audio_files "vgm" (fun _ => .exitZero) "/s" "/t" ".snu" ".wav"
        ⟨["/t/a.wav", "/s/a.snu"], ["/t/", "/s", "/t"]⟩).summaryOf = none :=
  ⟨by decide, by decide, by decide⟩

/-- C2 (amended): after a completed run with no errors, a second run over an
unchanged source tree finds every target present and takes the
`all files appear to be already converted` early return: it invokes no
decoder, changes nothing, and — unlike the claim's wording — produces no
per-file summary, so no `skipped` counter equal to the file count is
reported. -/
theorem c2_second_run_short_circuits (cli : String) (decoder : Decoder)
    (sourceRoot targetRoot : Path) (srcExt tgtExt : String) (st : RunState)
    (s : Summary) (st' : RunState) (inv : List (List String))
    (h1 : process_audio_files cli decoder sourceRoot targetRoot srcExt tgtExt
      st = .completed s st' inv)
    (herr : s.error_count = 0)
    (hsame : discover st' sourceRoot srcExt = discover st sourceRoot srcExt) :
    process_audio_files cli decoder sourceRoot targetRoot srcExt tgtExt st' =
      .allConverted st' := by
  simp only [process_audio_files] at h1
  split at h1
  · simp at h1
  · rename_i hne
    split at h1
    · simp at h1
    · have hall := processLoop_no_error_targets cli decoder
        (targetFileFor sourceRoot targetRoot tgtExt)
        (discover st sourceRoot srcExt) ⟨⟨0, 0, 0⟩, st, []⟩ s st' inv h1
        (by simpa using herr)
      have hfull : (discover st sourceRoot srcExt).filter
          (fun f => st'.fileExists (targetFileFor sourceRoot targetRoot tgtExt f)) =
          discover st sourceRoot srcExt :=
        List.filter_eq_self.mpr (fun a ha => hall.2 a ha)
      simp only [process_audio_files, hsame]
      rw [if_neg hne, if_pos (by rw [hfull])]

/-- Witness for C2 (amended): the concrete two-run scenario of the
counterexample, reproduced through the amended theorem. -/
theorem c2_second_run_short_circuits_witness :
    process_audio_files "vgm" (fun _ => .exitZero) "/s" "/t" ".snu" ".wav"
        ⟨["/t/a.wav", "/s/a.snu"], ["/t/", "/s", "/t"]⟩ =
      .allConverted ⟨["/t/a.wav", "/s/a.snu"], ["/t/", "/s", "/t"]⟩ :=
  c2_second_run_short_circuits "vgm" (fun _ => .exitZero) "/s" "/t" ".snu"
    ".wav" ⟨["/s/a.snu"], ["/s", "/t"]⟩ ⟨1, 0, 0⟩
    ⟨["/t/a.wav", "/s/a.snu"], ["/t/", "/s", "/t"]⟩
    [["vgm", "-o", "/t/a.wav", "/s/a.snu"]] (by decide) rfl (by decide)

/-- Resumption: over files with pairwise distinct targets and a decoder that
never vanishes, the loop completes; it skips exactly the files whose target
already existed at entry, sends every other file to success or error, and
invokes the decoder exactly on the files whose target was missing, in
order. -/
theorem processLoop_resumes (cli : String) (decoder : Decoder)
    (tgt : Path → Path) :
    ∀ (files : List Path) (l : LoopState),
      List.Pairwise (fun a b => tgt a ≠ tgt b) files →
      (∀ f ∈ files, decoder f ≠ .fileNotFound) →
      ∃ s st' newInv,
        processLoop cli decoder tgt files l =
          .completed s st' (l.invoked ++ newInv) ∧
        s.skip_count = l.summary.skip_count +
          files.countP (fun f => l.st.fileExists (tgt f)) ∧
        s.success_count + s.error_count =
          l.summary.success_count + l.summary.error_count +
            files.countP (fun f => !l.st.fileExists (tgt f)) ∧
        newInv = (files.filter (fun f => !l.st.fileExists (tgt f))).map
          (fun f => [cli, "-o", tgt f, f]) := by
  intro files
  induction files with
  | nil =>
    intro l _ _
    exact ⟨l.summary, l.st, [], by simp [processLoop], by simp, by simp,
      by simp⟩
  | cons src rest ih =>
    intro l hp hnf
    obtain ⟨hne, hp'⟩ := List.pairwise_cons.mp hp
    by_cases hex : l.st.fileExists (tgt src) = true
    · have hstep := processFile_skip cli decoder tgt l src hex
      obtain ⟨s, st', newInv, hloop, hskip, hsum, hinv⟩ :=
        ih ⟨{ l.summary with skip_count := l.summary.skip_count + 1 },
            l.st.mkdir (parentDir (tgt src)), l.invoked⟩ hp'
          (fun f hf => hnf f (List.mem_cons_of_mem _ hf))
      have hloop' : processLoop cli decoder tgt rest
          ⟨{ l.summary with skip_count := l.summary.skip_count + 1 },
            l.st.mkdir (parentDir (tgt src)), l.invoked⟩ =
          .completed s st' (l.invoked ++ newInv) := hloop
      have hskip' : s.skip_count = l.summary.skip_count + 1 +
          rest.countP (fun f => l.st.fileExists (tgt f)) := hskip
      have hsum' : s.success_count + s.error_count =
          l.summary.success_count + l.summary.error_count +
            rest.countP (fun f => !l.st.fileExists (tgt f)) := hsum
      have hinv' : newInv = (rest.filter (fun f => !l.st.fileExists (tgt f))).map
          (fun f => [cli, "-o", tgt f, f]) := hinv
      refine ⟨s, st', newInv, ?_, ?_, ?_, ?_⟩
      · rw [processLoop, hstep]
        exact hloop'
      · rw [List.countP_cons_of_pos _ _ (by simpa using hex), hskip']
        omega
      · rw [List.countP_cons_of_neg _ _ (by simp [hex]), hsum']
      · rw [List.filter_cons_of_neg (by simp [hex])]
        exact hinv'
    · have hex0 : l.st.fileExists (tgt src) = false := by simpa using hex
      obtain ⟨l', hstep, hskipEq, hsumEq, hinvEq, hframe⟩ :=
        processFile_convert cli decoder tgt l src hex0
          (hnf src (List.mem_cons_self _ _))
      obtain ⟨s, st', newInv, hloop, hskip, hsum, hinv⟩ :=
        ih l' hp' (fun f hf => hnf f (List.mem_cons_of_mem _ hf))
      have hcT : rest.countP (fun f => l'.st.fileExists (tgt f)) =
          rest.countP (fun f => l.st.fileExists (tgt f)) :=
        List.countP_congr (fun g hg => by
          rw [hframe (tgt g) (Ne.symm (hne g hg))])
      have hcF : rest.countP (fun f => !l'.st.fileExists (tgt f)) =
          rest.countP (fun f => !l.st.fileExists (tgt f)) :=
        List.countP_congr (fun g hg => by
          rw [hframe (tgt g) (Ne.symm (hne g hg))])
      have hfilt : rest.filter (fun f => !l'.st.fileExists (tgt f)) =
          rest.filter (fun f => !l.st.fileExists (tgt f)) :=
        List.filter_congr (fun g hg => by
          rw [hframe (tgt g) (Ne.symm (hne g hg))])
      refine ⟨s, st', [cli, "-o", tgt src, src] :: newInv, ?_, ?_, ?_, ?_⟩
      · rw [processLoop, hstep]
        exact hloop.trans (by rw [hinvEq]; simp)
      · rw [List.countP_cons_of_neg _ _ (by simp [hex0]), hskip, hskipEq, hcT]
      · rw [List.countP_cons_of_pos _ _ (by simp [hex0]), hsum]
        omega
      · rw [List.filter_cons_of_pos (by simp [hex0]), List.map_cons, hinv,
          hfilt]

/-- C1 counterexample: with one discovered source file whose target already
exists (n = k = 1), the run takes the `all files appear to be already
converted` early return and produces no summary at all — in particular it
does not produce `skipped = 1` as the claim requires for k = n. -/
theorem c1_counterexample_all_preexisting :
    process_audio_files "vgm" (fun _ => .exitZero) "/s" "/t" ".snu" ".wav"
        ⟨["/s/a.snu", "/t/a.wav"], ["/s", "/t"]⟩ =
      .allConverted ⟨["/s/a.snu", "/t/a.wav"], ["/s", "/t"]⟩ ∧
    (process_audio_files "vgm" (fun _ => .exitZero) "/s" "/t" ".snu" ".wav"
        ⟨["/s/a.snu", "/t/a.wav"], ["/s", "/t"]⟩).summaryOf ≠
      some ⟨0, 1, 0⟩ :=
  ⟨by decide, by decide⟩

/-- C1 (amended): provided not every discovered file's target already exists
— when all of them do, the engine instead takes the all-converted early
return and reports no counters, see the counterexample — and distinct files
have distinct targets and the decoder never vanishes mid-run, the run
completes with `skipped` equal to the number k of files whose target
pre-existed, sends the remaining n − k files to success or error, and
invokes the decoder exactly on those n − k files. -/
theorem c1_skip_iff_target_exists (cli : String) (decoder : Decoder)
    (sourceRoot targetRoot : Path) (srcExt tgtExt : String) (st : RunState)
    (hinj : List.Pairwise (fun a b =>
        targetFileFor sourceRoot targetRoot tgtExt a ≠
          targetFileFor sourceRoot targetRoot tgtExt b)
      (discover st sourceRoot srcExt))
    (hnf : ∀ f ∈ discover st sourceRoot srcExt, decoder f ≠ .fileNotFound)
    (hk : (discover st sourceRoot srcExt).countP
        (fun f => st.fileExists (targetFileFor sourceRoot targetRoot tgtExt f)) <
      (discover st sourceRoot srcExt).length) :
    ∃ s st' inv,
      process_audio_files cli decoder sourceRoot targetRoot srcExt tgtExt st =
        .completed s st' inv ∧
      s.skip_count = (discover st sourceRoot srcExt).countP
        (fun f => st.fileExists (targetFileFor sourceRoot targetRoot tgtExt f)) ∧
      s.success_count + s.error_count =
        (discover st sourceRoot srcExt).length - s.skip_count ∧
      inv = ((discover st sourceRoot srcExt).filter
          (fun f =>
            !st.fileExists (targetFileFor sourceRoot targetRoot tgtExt f))).map
        (fun f => [cli, "-o", targetFileFor sourceRoot targetRoot tgtExt f, f]) := by
  obtain ⟨s, st', newInv, hloop, hskip, hsum, hinv⟩ :=
    processLoop_resumes cli decoder (targetFileFor sourceRoot targetRoot tgtExt)
      (discover st sourceRoot srcExt) ⟨⟨0, 0, 0⟩, st, []⟩ hinj hnf
  have hskip0 : s.skip_count = (discover st sourceRoot srcExt).countP
      (fun f => st.fileExists (targetFileFor sourceRoot targetRoot tgtExt f)) := by
    simpa using hskip
  have hsum0 : s.success_count + s.error_count =
      (discover st sourceRoot srcExt).countP
        (fun f =>
          !st.fileExists (targetFileFor sourceRoot targetRoot tgtExt f)) := by
    simpa using hsum
  have hlen := List.length_eq_countP_add_countP
    (p := fun f => st.fileExists (targetFileFor sourceRoot targetRoot tgtExt f))
    (discover st sourceRoot srcExt)
  have hnegc : (discover st sourceRoot srcExt).countP
      (fun f => !st.fileExists (targetFileFor sourceRoot targetRoot tgtExt f)) =
      (discover st sourceRoot srcExt).countP
        (fun f =>
          ¬st.fileExists (targetFileFor sourceRoot targetRoot tgtExt f) = true) :=
    List.countP_congr (fun a _ => by simp)
  have hlenpos : 0 < (discover st sourceRoot srcExt).length :=
    Nat.lt_of_le_of_lt (Nat.zero_le _) hk
  have hempty : (discover st sourceRoot srcExt).isEmpty = false :=
    List.isEmpty_eq_false.mpr (List.length_pos.mp hlenpos)
  have hfleq : ((discover st sourceRoot srcExt).filter
      (fun f =>
        st.fileExists (targetFileFor sourceRoot targetRoot tgtExt f))).length =
      (discover st sourceRoot srcExt).countP
        (fun f => st.fileExists (targetFileFor sourceRoot targetRoot tgtExt f)) :=
    (List.countP_eq_length_filter _ _).symm
  refine ⟨s, st', newInv, ?_, hskip0, by omega, by simpa using hinv⟩
  simp only [process_audio_files]
  rw [if_neg (by simp [hempty]), if_neg (by rw [hfleq]; omega)]
  simpa using hloop

/-- Witness for C1 (amended): two discovered files, one target pre-existing,
so the run reports one skip, one success, and invokes the decoder once. -/
theorem c1_skip_iff_target_exists_witness :
    ∃ s st' inv,
      process_audio_files "vgm" (fun _ => .exitZero) "/s" "/t" ".snu" ".wav"
          ⟨["/s/a.snu", "/s/b.snu", "/t/a.wav"], ["/s", "/t"]⟩ =
        .completed s st' inv ∧
      s.skip_count = (discover ⟨["/s/a.snu", "/s/b.snu", "/t/a.wav"],
          ["/s", "/t"]⟩ "/s" ".snu").countP
        (fun f => RunState.fileExists
          ⟨["/s/a.snu", "/s/b.snu", "/t/a.wav"], ["/s", "/t"]⟩
          (targetFileFor "/s" "/t" ".wav" f)) ∧
      s.success_count + s.error_count =
        (discover ⟨["/s/a.snu", "/s/b.snu", "/t/a.wav"],
          ["/s", "/t"]⟩ "/s" ".snu").length - s.skip_count ∧
      inv = ((discover ⟨["/s/a.snu", "/s/b.snu", "/t/a.wav"],
          ["/s", "/t"]⟩ "/s" ".snu").filter
          (fun f => !RunState.fileExists
            ⟨["/s/a.snu", "/s/b.snu", "/t/a.wav"], ["/s", "/t"]⟩
            (targetFileFor "/s" "/t" ".wav" f))).map
        (fun f => ["vgm", "-o", targetFileFor "/s" "/t" ".wav" f, f]) :=
  c1_skip_iff_target_exists "vgm" (fun _ => .exitZero) "/s" "/t" ".snu" ".wav"
    ⟨["/s/a.snu", "/s/b.snu", "/t/a.wav"], ["/s", "/t"]⟩
    (by decide) (by decide) (by decide)

end AudioAssets
